import Mathlib

/-!
Verification of the QuizX live-quiz platform core (Flask + Socket.IO).

This file shallowly embeds the data model and the operations of the
repository's scoring, leaderboard, timer and live-session logic, directly
from the Python source:

* `app/models/quiz.py`, `question.py`, `answer.py`, `result.py` — data model;
* `app/routes/student.py` — answer validation (`check_answer_correctness`),
  scoring (`calculate_question_points`), the submission handler
  (`attempt_quiz` POST), the overall-timer computation of the participant
  view, and the leaderboard API endpoints;
* `app/routes/admin.py` — the overall-timer computation of the host
  live-control view;
* `app/services/scoring_service.py` — `ScoringService.calculate_points`
  and `ScoringService.update_question_rank_bonuses`;
* `app/services/leaderboard_service.py` and
  `app/routes/leaderboard_service.py` — the two variants of
  `LeaderboardService` present in the repository (the application imports
  the `app/services` one via the `app.services` package);
* `app/sockets/quiz_events.py` — the `admin_next_question` Socket.IO
  handler (registered last, so it is the effective handler for that event).

Database rows are modelled as lists of records; SQL `ORDER BY` and Python
`list.sort` are modelled by a stable insertion sort on a key; machine
integers and Python floats are modelled as `Int`/`Nat`/`ℚ`.
-/

namespace QuizX

/-- Quiz row, from `app/models/quiz.py` (class `Quiz`).  Only the columns
the verified operations read are carried.  `overall_timer` is the nullable
minutes column (`None` = disabled); `show_leaderboard_global` is a nullable
Boolean whose `None` and `False` are indistinguishable to the code (both
falsy), so it is a `Bool` here. -/
structure Quiz where
  id : Nat
  has_timer : Bool
  overall_timer : Option Int
  show_leaderboard_global : Bool
  is_published : Bool
  is_active : Bool
  is_paused : Bool
  paused_seconds : Int
  deriving Repr, DecidableEq

/-- Question row, from `app/models/question.py` (class `Question`).
`correct_answers` is the parsed result of `get_correct_answers()` (the JSON
column, with the legacy single-`answer` fallback already applied by that
method); `answer` is the legacy column used by the unknown-type fallback in
`check_answer_correctness`. -/
structure Question where
  id : Nat
  quiz_id : Nat
  order : Nat
  question_type : String
  correct_answers : List String
  answer : String
  points : ℚ
  time_limit : Nat
  show_leaderboard : Bool
  deriving Repr, DecidableEq

/-- PartialAnswer row, from `app/models/answer.py` (class `PartialAnswer`):
one submitted answer, with primary key `id` and the unique constraint
`(quiz_id, question_id, student)`.  `submitted_at` is a timestamp modelled
as a natural number. -/
structure PartialAnswer where
  id : Nat
  quiz_id : Nat
  question_id : Nat
  student : String
  is_correct : Bool
  time_taken : Nat
  points : ℚ
  submitted_at : Nat
  deriving Repr, DecidableEq

/-- Result row, from `app/models/result.py` (class `Result`): the
per-(quiz, student) session result. -/
structure ResultRow where
  quiz_id : Nat
  student : String
  score : Nat
  total : Nat
  time_taken : Nat
  total_points : ℚ
  deriving Repr, DecidableEq

/-- The persisted store the submission handler touches: the
`partial_answer` and `result` tables as lists of rows. -/
structure DB where
  answers : List PartialAnswer
  results : List ResultRow
  deriving Repr, DecidableEq

/-- A live-session entry of the process-wide `quiz_state` dict
(`app/extensions.py`), as populated by `start_quiz` in
`app/routes/admin.py`: the current 0-based question index and, when the
overall timer is enabled, its start timestamp. -/
structure SessionState where
  current_qindex : Nat
  overall_started_at : Option Int
  deriving Repr, DecidableEq

/-! ## C3: advancing the question index (`app/sockets/quiz_events.py`) -/

/-- Events the `admin_next_question` handler can broadcast to the quiz
room. -/
inductive SocketEvent where
  | quizFinished
  | loadNextQuestion (qindex : Nat)
  deriving Repr, DecidableEq

/-- The `admin_next_question` Socket.IO handler of
`app/sockets/quiz_events.py` (lines 23–50), the handler registered last
for that event and hence the effective one.  Given the quiz's question
count and the current index of `quiz_state` (0 when the quiz has no entry
yet), it returns the new index and the event broadcast: `quiz_finished`
when `current_index >= total_questions - 1` (Python `int` arithmetic, so
the comparison is over `Int`), else it increments the index and broadcasts
`load_next_question` with the new index. -/
def admin_next_question (total_questions : Nat) (current_index : Nat) :
    Nat × SocketEvent :=
  if (current_index : Int) ≥ (total_questions : Int) - 1 then
    (current_index, SocketEvent.quizFinished)
  else
    (current_index + 1, SocketEvent.loadNextQuestion (current_index + 1))

/-- `k` successive `admin_next_question` events, tracking only the stored
index. -/
def advanceRepeatedly (total_questions : Nat) : Nat → Nat → Nat
  | 0, idx => idx
  | k + 1, idx =>
      advanceRepeatedly total_questions k
        (admin_next_question total_questions idx).1

/-! ## C2: overall-timer remaining time (`admin.py` / `student.py`) -/

/-- Overall-timer computation of the host live-control view,
`app/routes/admin.py` lines 464–473 (`live_control`): under
`quiz.has_timer and quiz.is_active and quiz_id in quiz_state and
quiz.overall_timer and quiz.overall_timer > 0` and a recorded
`overall_started_at`, `elapsed = now - started_at - quiz.paused_seconds`
and `remaining = max(0, overall_timer * 60 - elapsed)`; otherwise both are
0.  Returns `(elapsed_seconds, remaining_seconds)`. -/
def live_control_timer (quiz : Quiz) (state : Option SessionState)
    (now : Int) : Int × Int :=
  match state with
  | none => (0, 0)
  | some st =>
    if quiz.has_timer && quiz.is_active &&
        (match quiz.overall_timer with
         | some m => !(m == 0) && decide (0 < m)
         | none => false) then
      match st.overall_started_at with
      | some started =>
        let elapsed := now - started - quiz.paused_seconds
        let total := (match quiz.overall_timer with
                      | some m => m
                      | none => 0) * 60
        (elapsed, max 0 (total - elapsed))
      | none => (0, 0)
    else (0, 0)

/-- Overall-timer computation of the participant quiz view,
`app/routes/student.py` lines 378–383 (`attempt_quiz`, GET): under
`quiz.has_timer and quiz.overall_timer` and a session entry with
`overall_started_at`, `elapsed = now - overall_started_at` (the
`paused_seconds` column is not subtracted here) and
`remaining = max(0, overall_timer * 60 - elapsed)`; otherwise `None`. -/
def attempt_quiz_remaining (quiz : Quiz) (state : Option SessionState)
    (now : Int) : Option Int :=
  if quiz.has_timer &&
      (match quiz.overall_timer with
       | some m => !(m == 0)
       | none => false) then
    match state with
    | some st =>
      match st.overall_started_at with
      | some started =>
        let elapsed := now - started
        let total := (match quiz.overall_timer with
                      | some m => m
                      | none => 0) * 60
        some (max 0 (total - elapsed))
      | none => none
    | none => none
  else none

/-! ## Answer validation (`app/routes/student.py`, `check_answer_correctness`) -/

/-- Helper for `strip_html_tags`: consume characters up to and including
the first `>` and return the rest, `none` when no `>` occurs (the
non-greedy regex `<.*?>` then matches nothing starting at this `<`). -/
def dropTag : List Char → Option (List Char)
  | [] => none
  | c :: rest => if c = '>' then some rest else dropTag rest

/-- Character-level worker for `strip_html_tags`. -/
def stripHtmlAux : List Char → List Char
  | [] => []
  | c :: rest =>
    if _hc : c = '<' then
      match _hd : dropTag rest with
      | some rest2 => stripHtmlAux rest2
      | none => c :: stripHtmlAux rest
    else c :: stripHtmlAux rest
termination_by l => l.length
decreasing_by
  · have key : ∀ (l r : List Char), dropTag l = some r → r.length < l.length := by
      intro l
      induction l with
      | nil => intro r h; simp [dropTag] at h
      | cons c' rest' ih =>
        intro r h
        by_cases hc : c' = '>'
        · simp [dropTag, hc] at h
          simp [← h]
        · simp [dropTag, hc] at h
          exact Nat.lt_succ_of_lt (ih r h)
    exact Nat.lt_succ_of_lt (key _ _ _hd)
  · simp
  · simp

/-- `strip_html_tags` of `app/routes/student.py` (lines 20–25): removes
every minimal `<...>` substring, as `re.sub('<.*?>', '', s)` does (for tag
bodies without newlines, which `.` would not match). -/
def strip_html_tags (s : String) : String := ⟨stripHtmlAux s.data⟩

/-- A submitted form value as the handlers see it.  `missing` is a falsy
value (absent field or empty string), `noAnswer` the literal sentinel
string `"No Answer"`, and `str raw parsed` any other string, where
`parsed` carries the result of `json.loads(raw)` normalised to a list of
strings (a scalar is wrapped in a one-element list, per the code), `none`
when parsing raises. -/
inductive SubmittedValue where
  | missing
  | noAnswer
  | str (raw : String) (parsed : Option (List String))
  deriving Repr, DecidableEq

/-- Python `set(a) == set(b)` on lists of strings. -/
def listSetEq (l c : List String) : Bool :=
  l.all (fun x => c.contains x) && c.all (fun x => l.contains x)

/-- `check_answer_correctness` of `app/routes/student.py` (lines
147–187): falsy or `"No Answer"` values are incorrect; multiple-choice
compares the stripped value against the stripped correct markers; checkbox
compares the parsed selection set with the correct-answer set (parse
failure incorrect); short-answer/paragraph compare HTML-stripped, trimmed,
lower-cased text against the normalised markers (empty marker list
incorrect); any other type falls back to comparing against the legacy
`answer` column. -/
def check_answer_correctness (q : Question) (v : SubmittedValue) : Bool :=
  match v with
  | .missing => false
  | .noAnswer => false
  | .str raw parsed =>
    if q.question_type = "multiple-choice" then
      (q.correct_answers.map (fun a => a.trim)).contains raw.trim
    else if q.question_type = "checkbox" then
      match parsed with
      | some l => listSetEq l q.correct_answers
      | none => false
    else if q.question_type = "short-answer" ∨ q.question_type = "paragraph" then
      let s := (strip_html_tags raw).trim.toLower
      let cs := q.correct_answers.map (fun a => (strip_html_tags a).trim.toLower)
      if cs.isEmpty then false else cs.contains s
    else
      raw.trim == q.answer.trim

/-! ## Scoring (`student.py` and `app/services/scoring_service.py`) -/

/-- The `base_points = question.points or 1.0` fallback of
`calculate_question_points`: a `None`/`0.0` points column (both falsy)
yields 1.0. -/
def basePoints (q : Question) : ℚ := if q.points = 0 then 1 else q.points

/-- `calculate_question_points` of `app/routes/student.py` (lines
190–210): 0 when incorrect; when the quiz has per-question timing and the
question a positive time limit, the base points are multiplied by 1.5,
1.2, 1.0 or 0.8 according to the ratio `time_taken / time_limit`
(thresholds 0.3, 0.6, 0.9); otherwise the base points are returned
unmodified. -/
def calculate_question_points (q : Question) (is_correct : Bool)
    (time_taken : Nat) (quiz : Quiz) : ℚ :=
  if is_correct = false then 0
  else
    let base := basePoints q
    if quiz.has_timer ∧ q.time_limit ≠ 0 ∧ 0 < q.time_limit then
      let r : ℚ := (time_taken : ℚ) / (q.time_limit : ℚ)
      if r ≤ 3/10 then base * (3/2)
      else if r ≤ 6/10 then base * (6/5)
      else if r ≤ 9/10 then base * 1
      else base * (4/5)
    else base

/-- Python `round(x, 1)`, modelled as rounding `10 x` to an integer (the
code only applies it to nonnegative partial-credit ratios; no verified
claim depends on its tie behaviour). -/
def round1 (x : ℚ) : ℚ := (round (x * 10) : ℤ) / 10

/-- `ScoringService.calculate_points` of
`app/services/scoring_service.py` (lines 13–46): 0 when incorrect; a
hard-coded base of 1; checkbox questions with more than one correct option
get partial credit `round(correct_count / total_correct * base, 1)`;
otherwise the same speed-multiplier ladder as
`calculate_question_points`, else the base unmodified. -/
def ScoringService.calculate_points (is_correct : Bool) (time_taken : Nat)
    (time_limit : Nat) (has_timer : Bool) (question_type : String)
    (correct_count : Nat) (total_correct : Nat) : ℚ :=
  if is_correct = false then 0
  else
    let base : ℚ := 1
    if question_type = "checkbox" ∧ 1 < total_correct then
      if 0 < correct_count then
        round1 ((correct_count : ℚ) / (total_correct : ℚ) * base)
      else 0
    else if has_timer ∧ time_limit ≠ 0 ∧ 0 < time_limit then
      let r : ℚ := (time_taken : ℚ) / (time_limit : ℚ)
      if r ≤ 3/10 then base * (3/2)
      else if r ≤ 6/10 then base * (6/5)
      else if r ≤ 9/10 then base * 1
      else base * (4/5)
    else base

/-- The speed multiplier as the specification states it:
`r ≤ 0.3 → 1.5`, `0.3 < r ≤ 0.6 → 1.2`, `0.6 < r ≤ 0.9 → 1.0`,
`r > 0.9 → 0.8`.  Stated from the spec's words, for comparison with the
two scoring functions. -/
def speedMultiplier (r : ℚ) : ℚ :=
  if r ≤ 3/10 then 3/2
  else if r ≤ 3/5 then 6/5
  else if r ≤ 9/10 then 1
  else 4/5

/-- The `PartialAnswer` record the submission handler constructs and
inserts (`app/routes/student.py` lines 279–287): correctness from
`check_answer_correctness`, points from `calculate_question_points`. -/
def insertedAnswer (quiz : Quiz) (q : Question) (student : String)
    (v : SubmittedValue) (time_taken : Nat) (newId submittedAt : Nat) :
    PartialAnswer :=
  let c := check_answer_correctness q v
  { id := newId, quiz_id := quiz.id, question_id := q.id,
    student := student, is_correct := c, time_taken := time_taken,
    points := calculate_question_points q c time_taken quiz,
    submitted_at := submittedAt }

/-- The remaining-time formula the specification prescribes:
`max(0, duration - (now - overall_started_at - paused_seconds))`, so that
paused time is excluded from timer consumption.  Stated from the spec's
words, for comparison with the two view computations above. -/
def specRemaining (duration now started paused : Int) : Int :=
  max 0 (duration - (now - started - paused))

/-! ## Stable sorting on a key

SQL `ORDER BY` (on one or more columns, ascending) and Python's stable
`list.sort(key=...)` are both modelled as Mathlib's stable insertion sort
under the key's linear order; multi-column keys become lexicographic
pairs. -/

instance decKeyLe {α κ : Type} [LinearOrder κ] (key : α → κ) :
    DecidableRel (fun a b : α => key a ≤ key b) :=
  fun a b => inferInstanceAs (Decidable (key a ≤ key b))

/-- Stable ascending sort of `l` by `key`. -/
def sortOnKey {α κ : Type} [LinearOrder κ] (key : α → κ) (l : List α) :
    List α :=
  List.insertionSort (fun a b => key a ≤ key b) l

/-! ## C4: rank bonuses (`ScoringService.update_question_rank_bonuses`) -/

/-- The row filter of the rank-bonus query: correct answers of the given
(quiz, question). -/
def isCorrectFor (quiz_id question_id : Nat) (a : PartialAnswer) : Bool :=
  a.quiz_id == quiz_id && a.question_id == question_id && a.is_correct

/-- The query of `update_question_rank_bonuses`
(`app/services/scoring_service.py` lines 54–60): all correct answers for
the (quiz, question), ordered by ascending `time_taken`. -/
def rankedCorrect (quiz_id question_id : Nat) (db : List PartialAnswer) :
    List PartialAnswer :=
  sortOnKey (fun a => a.time_taken) (db.filter (isCorrectFor quiz_id question_id))

/-- One `answer.points += bonus` mutation of the awarding loop, applied to
the table by primary key. -/
def awardBonus (db : List PartialAnswer) (p : PartialAnswer × ℚ) :
    List PartialAnswer :=
  db.map (fun a => if a.id = p.1.id then { a with points := a.points + p.2 } else a)

/-- `ScoringService.update_question_rank_bonuses`
(`app/services/scoring_service.py` lines 48–71): the three fastest correct
answers (`correct_answers[:3]`, zipped with `bonus_points = [3, 2, 1]`)
each get their bonus added to their stored points. -/
def update_question_rank_bonuses (quiz_id question_id : Nat)
    (db : List PartialAnswer) : List PartialAnswer :=
  (((rankedCorrect quiz_id question_id db).take 3).zip
    ([3, 2, 1] : List ℚ)).foldl awardBonus db

/-- Total bonus the awarding loop pairs give to the row with primary key
`i`. -/
def bonusSum (i : Nat) : List (PartialAnswer × ℚ) → ℚ
  | [] => 0
  | p :: ps => (if p.1.id = i then p.2 else 0) + bonusSum i ps

/-- The bonus one invocation of `update_question_rank_bonuses` adds to the
row with primary key `i`. -/
def rankBonus (quiz_id question_id : Nat) (db : List PartialAnswer)
    (i : Nat) : ℚ :=
  bonusSum i (((rankedCorrect quiz_id question_id db).take 3).zip
    ([3, 2, 1] : List ℚ))

/-- The flat bonus of the claim: +3, +2, +1 for speed ranks 0, 1, 2 (and
nothing beyond). -/
def bonusOfPos (k : Nat) : ℚ :=
  if k = 0 then 3 else if k = 1 then 2 else if k = 2 then 1 else 0

/-! ## C5/C6: the submission handler (`attempt_quiz` POST) -/

/-- The duplicate-submission delete filter of `attempt_quiz`
(`student.py` lines 260–264): rows of the (quiz, question, student)
triple. -/
def answerTriple (quiz_id question_id : Nat) (student : String)
    (a : PartialAnswer) : Bool :=
  a.quiz_id == quiz_id && a.question_id == question_id && a.student == student

/-- A student's answers for a quiz (the aggregation query of the
last-question branch, `student.py` lines 307–310). -/
def studentAnswers (quiz_id : Nat) (student : String)
    (db : List PartialAnswer) : List PartialAnswer :=
  db.filter (fun a => a.quiz_id == quiz_id && a.student == student)

/-- The `Result` row built on completion (`student.py` lines 312–329):
correct count, question count, summed time and summed points of the
student's answers. -/
def mkResult (quiz_id : Nat) (student : String) (total_questions : Nat)
    (partials : List PartialAnswer) : ResultRow :=
  { quiz_id := quiz_id, student := student,
    score := (partials.filter (fun p => p.is_correct)).length,
    total := total_questions,
    time_taken := (partials.map (fun p => p.time_taken)).sum,
    total_points := (partials.map (fun p => p.points)).sum }

/-- The POST branch of `attempt_quiz` (`app/routes/student.py` lines
250–331), acting on the persisted store: delete any prior answer of the
(quiz, question, student) triple; insert the freshly validated and scored
answer; run the rank-bonus awarder for the question; and on the last
question (`qindex >= total_questions - 1`, over Python ints, i.e.
`total_questions ≤ qindex + 1`) create the session `Result` for
(quiz, student) unless one already exists. -/
def attempt_quiz_post (quiz : Quiz) (questions : List Question)
    (q : Question) (student : String) (qindex : Nat) (v : SubmittedValue)
    (time_taken : Nat) (newId submittedAt : Nat) (db : DB) : DB :=
  let afterDelete :=
    db.answers.filter (fun a => !(answerTriple quiz.id q.id student a))
  let newRow := insertedAnswer quiz q student v time_taken newId submittedAt
  let afterBonus := update_question_rank_bonuses quiz.id q.id
    (afterDelete ++ [newRow])
  let total_questions := questions.length
  if total_questions ≤ qindex + 1 then
    let partials := studentAnswers quiz.id student afterBonus
    let existing := db.results.filter
      (fun r => r.quiz_id == quiz.id && r.student == student)
    if existing.isEmpty then
      { answers := afterBonus,
        results := db.results ++
          [mkResult quiz.id student total_questions partials] }
    else { answers := afterBonus, results := db.results }
  else { answers := afterBonus, results := db.results }

/-! ## C1: the full leaderboard builders -/

/-- First occurrence of each string kept, later duplicates dropped: the
deterministic model of the `GROUP BY student` key order. -/
def dedupFirst : List String → List String
  | [] => []
  | s :: rest => s :: dedupFirst (rest.filter (fun t => !(t == s)))
termination_by l => l.length
decreasing_by
  exact Nat.lt_succ_of_le (List.length_filter_le _ _)

/-- `GROUP BY PartialAnswer.student` over a quiz's answers: each distinct
student (in first-occurrence order) with their rows. -/
def groupByStudent (quiz_id : Nat) (db : List PartialAnswer) :
    List (String × List PartialAnswer) :=
  let rows := db.filter (fun a => a.quiz_id == quiz_id)
  (dedupFirst (rows.map (fun a => a.student))).map
    (fun s => (s, rows.filter (fun a => a.student == s)))

/-- A payload entry of `build_leaderboard_payload` in
`app/routes/leaderboard_service.py`. -/
structure LBEntry where
  name : String
  points : ℚ
  correct : Nat
  avg_time : Nat
  time : Nat
  answered : Nat
  total_questions : Nat
  rank : Nat
  deriving Repr, DecidableEq

/-- The aggregates of one `GROUP BY student` group, per
`app/routes/leaderboard_service.py` lines 26–57: summed points, correct
count, truncated average time, summed time, answer count.  `rank` is
filled in afterwards. -/
def mkLBEntry (total_questions : Nat) (g : String × List PartialAnswer) :
    LBEntry :=
  { name := g.1,
    points := (g.2.map (fun a => a.points)).sum,
    correct := (g.2.filter (fun a => a.is_correct)).length,
    avg_time := (g.2.map (fun a => a.time_taken)).sum / g.2.length,
    time := (g.2.map (fun a => a.time_taken)).sum,
    answered := g.2.length,
    total_questions := total_questions,
    rank := 0 }

/-- The sort key of `payload.sort(key=lambda x: (-x['points'],
-x['correct'], x['time']))`. -/
def lbKey (e : LBEntry) : ℚ ×ₗ (ℤ ×ₗ ℕ) :=
  toLex (-e.points, toLex (-(e.correct : ℤ), e.time))

/-- `for idx, entry in enumerate(payload, 1): entry['rank'] = idx`. -/
def assignRanks (n : Nat) : List LBEntry → List LBEntry
  | [] => []
  | e :: es => { e with rank := n } :: assignRanks (n + 1) es

/-- `LeaderboardService.build_leaderboard_payload` of
`app/routes/leaderboard_service.py` (lines 13–66): empty when the quiz is
missing or its global leaderboard flag is unset; otherwise one aggregate
entry per participant, sorted by descending points, then descending
correct count, then ascending total time, with ranks 1, 2, … assigned in
sorted order.  This variant is shadowed: the `app.services` package
exports the `app/services` one below. -/
def build_leaderboard_payload_routes (quiz : Option Quiz) (quiz_id : Nat)
    (questions : List Question) (db : List PartialAnswer) : List LBEntry :=
  match quiz with
  | none => []
  | some qz =>
    if qz.show_leaderboard_global = false then []
    else
      let total_questions :=
        (questions.filter (fun q => q.quiz_id == quiz_id)).length
      let entries := (groupByStudent quiz_id db).map (mkLBEntry total_questions)
      assignRanks 1 (sortOnKey lbKey entries)

/-- A payload row of `build_leaderboard_payload` in
`app/services/leaderboard_service.py` (`int(...)` truncates the float
sums). -/
structure SvcLBRow where
  student : String
  points : ℤ
  correct : Nat
  incorrect : Nat
  time : Nat
  total : Nat
  deriving Repr, DecidableEq

/-- Python `int()` on a rational: truncation toward zero. -/
def truncQ (x : ℚ) : ℤ := if x < 0 then ⌈x⌉ else ⌊x⌋

/-- `LeaderboardService.build_leaderboard_payload` of
`app/services/leaderboard_service.py` (lines 13–45) — the variant the
application actually imports: the per-participant aggregates of the quiz,
in group order, with no leaderboard-flag check, no sort and no ranks. -/
def build_leaderboard_payload_services (quiz_id : Nat)
    (questions : List Question) (db : List PartialAnswer) : List SvcLBRow :=
  let total_questions :=
    (questions.filter (fun q => q.quiz_id == quiz_id)).length
  (groupByStudent quiz_id db).map (fun g =>
    { student := g.1,
      points := truncQ ((g.2.map (fun a => a.points)).sum),
      correct := (g.2.filter (fun a => a.is_correct)).length,
      incorrect := (g.2.filter (fun a => !a.is_correct)).length,
      time := (g.2.map (fun a => a.time_taken)).sum,
      total := total_questions })

/-- The `api_leaderboard` endpoint (`app/routes/student.py` lines
570–603): an empty leaderboard when the quiz is missing or its global
flag is unset, else the payload of the (services) builder. -/
def api_leaderboard (quiz : Option Quiz) (quiz_id : Nat)
    (questions : List Question) (db : List PartialAnswer) : List SvcLBRow :=
  match quiz with
  | none => []
  | some qz =>
    if qz.show_leaderboard_global = false then []
    else build_leaderboard_payload_services quiz_id questions db

/-- Concrete quiz fixture (leaderboards enabled, no timer). -/
def wQuiz : Quiz :=
  { id := 1, has_timer := false, overall_timer := none,
    show_leaderboard_global := true, is_published := true,
    is_active := true, is_paused := false, paused_seconds := 0 }

/-- Concrete quiz fixture with the global leaderboard flag unset. -/
def wQuizNoLB : Quiz := { wQuiz with show_leaderboard_global := false }

/-- Concrete question fixture. -/
def wQuestion : Question :=
  { id := 1, quiz_id := 1, order := 0, question_type := "multiple-choice",
    correct_answers := ["A"], answer := "A", points := 1, time_limit := 0,
    show_leaderboard := true }

/-- Concrete answer table used by witnesses: three correct answers (times
10, 5, 20) and one incorrect, all for quiz 1 / question 1, with distinct
primary keys. -/
def c4Db : List PartialAnswer :=
  [⟨1, 1, 1, "a", true, 10, 1, 100⟩, ⟨2, 1, 1, "b", true, 5, 1, 101⟩,
   ⟨3, 1, 1, "c", true, 20, 1, 102⟩, ⟨4, 1, 1, "d", false, 2, 0, 103⟩]

/-! ## C9: the per-question leaderboard -/

/-- A payload entry of `get_question_leaderboard` in
`app/services/leaderboard_service.py`. -/
structure QLEntry where
  rank : Nat
  student : String
  time_taken : Nat
  points : ℚ
  deriving Repr, DecidableEq

/-- `enumerate(answers)` with ranks `i + 1` (`app/services/
leaderboard_service.py` lines 86–94). -/
def qlEntries (n : Nat) : List PartialAnswer → List QLEntry
  | [] => []
  | a :: as =>
    { rank := n, student := a.student, time_taken := a.time_taken,
      points := a.points } :: qlEntries (n + 1) as

/-- The answer list `get_question_leaderboard` ranks
(`app/services/leaderboard_service.py` lines 68–84): the correct answers
of the (quiz, question); when the quiz has per-question timing, ordered by
ascending `time_taken` then ascending `submitted_at`, otherwise by
ascending `submitted_at` alone; capped to 10 rows. -/
def questionRanking (qz : Quiz) (quiz_id question_id : Nat)
    (db : List PartialAnswer) : List PartialAnswer :=
  let base := db.filter (isCorrectFor quiz_id question_id)
  if qz.has_timer then
    (sortOnKey (fun a => toLex (a.time_taken, a.submitted_at)) base).take 10
  else
    (sortOnKey (fun a => a.submitted_at) base).take 10

/-- `LeaderboardService.get_question_leaderboard` of
`app/services/leaderboard_service.py` (lines 59–94) — the variant the
application imports: empty for a missing quiz, else the ranked rows of
`questionRanking` (no leaderboard-flag check here). -/
def get_question_leaderboard_services (quiz : Option Quiz)
    (quiz_id question_id : Nat) (db : List PartialAnswer) : List QLEntry :=
  match quiz with
  | none => []
  | some qz => qlEntries 1 (questionRanking qz quiz_id question_id db)

/-- The `api_question_leaderboard` endpoint (`app/routes/student.py`
lines 606–637): an empty leaderboard when the quiz is missing, the
quiz-global flag is unset, or the question exists and its per-question
flag is unset; else the payload of the (services)
`get_question_leaderboard`. -/
def api_question_leaderboard (quiz : Option Quiz) (question : Option Question)
    (quiz_id question_id : Nat) (db : List PartialAnswer) : List QLEntry :=
  match quiz with
  | none => []
  | some qz =>
    if qz.show_leaderboard_global = false then []
    else
      match question with
      | some qu =>
        if qu.show_leaderboard = false then []
        else get_question_leaderboard_services (some qz) quiz_id question_id db
      | none => get_question_leaderboard_services (some qz) quiz_id question_id db

end QuizX

namespace QuizX

/-! ## Helper lemmas -/

theorem listSetEq_iff (l c : List String) :
    listSetEq l c = true ↔ l.toFinset = c.toFinset := by
  simp only [listSetEq, Bool.and_eq_true, List.all_eq_true,
    List.contains, List.elem_iff, Finset.ext_iff, List.mem_toFinset]
  constructor
  · exact fun h x => ⟨fun hx => h.1 x hx, fun hx => h.2 x hx⟩
  · exact fun h => ⟨fun x hx => (h x).1 hx, fun x hx => (h x).2 hx⟩

theorem sortOnKey_perm {α κ : Type} [LinearOrder κ] (key : α → κ)
    (l : List α) : List.Perm (sortOnKey key l) l :=
  List.perm_insertionSort _ l

theorem sortOnKey_sorted {α κ : Type} [LinearOrder κ] (key : α → κ)
    (l : List α) :
    (sortOnKey key l).Pairwise (fun a b => key a ≤ key b) := by
  haveI : IsTotal α (fun a b => key a ≤ key b) :=
    ⟨fun a b => le_total (key a) (key b)⟩
  haveI : IsTrans α (fun a b => key a ≤ key b) :=
    ⟨fun _ _ _ h1 h2 => le_trans h1 h2⟩
  exact List.sorted_insertionSort _ l

theorem orderedInsert_map {α κ : Type} [LinearOrder κ] (key : α → κ)
    (f : α → α) (hf : ∀ a, key (f a) = key a) (a : α) (l : List α) :
    (l.map f).orderedInsert (fun a b => key a ≤ key b) (f a)
      = (l.orderedInsert (fun a b => key a ≤ key b) a).map f := by
  induction l with
  | nil => rfl
  | cons b bs ih =>
    simp only [List.map_cons, List.orderedInsert]
    by_cases h : key a ≤ key b
    · rw [if_pos (by rw [hf, hf]; exact h), if_pos h, List.map_cons,
        List.map_cons]
    · rw [if_neg (by rw [hf, hf]; exact h), if_neg h, List.map_cons, ih]

theorem sortOnKey_map {α κ : Type} [LinearOrder κ] (key : α → κ)
    (f : α → α) (hf : ∀ a, key (f a) = key a) (l : List α) :
    sortOnKey key (l.map f) = (sortOnKey key l).map f := by
  induction l with
  | nil => rfl
  | cons a as ih =>
    simp only [sortOnKey, List.map_cons, List.insertionSort] at ih ⊢
    rw [ih, orderedInsert_map key f hf]

theorem filter_map_comm {α : Type} (p : α → Bool) (f : α → α)
    (hf : ∀ a, p (f a) = p a) (l : List α) :
    (l.map f).filter p = (l.filter p).map f := by
  induction l with
  | nil => rfl
  | cons a as ih =>
    simp only [List.map_cons, List.filter_cons, hf]
    cases h : p a <;> simp [ih]

/-! ## C4 helper lemmas -/

theorem foldl_awardBonus (ps : List (PartialAnswer × ℚ)) :
    ∀ db : List PartialAnswer,
      ps.foldl awardBonus db
        = db.map (fun a => { a with points := a.points + bonusSum a.id ps }) := by
  induction ps with
  | nil =>
    intro db
    simp only [List.foldl_nil, bonusSum]
    induction db with
    | nil => rfl
    | cons a as ih =>
      rw [List.map_cons, ih]
      cases a
      simp
  | cons p ps ih =>
    intro db
    rw [List.foldl_cons, ih (awardBonus db p)]
    simp only [awardBonus, List.map_map]
    refine congrArg (fun g => db.map g) (funext fun a => ?_)
    cases a with
    | mk i qz qn stu c tt pts sub =>
      by_cases h : i = p.1.id
      · simp only [Function.comp, h, if_pos rfl, bonusSum]
        simp [add_assoc]
      · have h' : ¬ p.1.id = i := fun hh => h hh.symm
        simp only [Function.comp, if_neg h, bonusSum]
        simp [h']

theorem update_eq_map (qz qn : Nat) (db : List PartialAnswer) :
    update_question_rank_bonuses qz qn db
      = db.map (fun a => { a with points := a.points + rankBonus qz qn db a.id }) :=
  foldl_awardBonus _ db

theorem bonusSum_eq_zero (i : Nat) (ps : List (PartialAnswer × ℚ))
    (h : ∀ p ∈ ps, p.1.id ≠ i) : bonusSum i ps = 0 := by
  induction ps with
  | nil => rfl
  | cons p ps ih =>
    simp only [bonusSum]
    rw [if_neg (h p (List.mem_cons_self _ _)),
      ih (fun q hq => h q (List.mem_cons_of_mem _ hq)), add_zero]

theorem bonusSum_zip_get (l : List PartialAnswer) (bs : List ℚ)
    (hnd : (l.map (fun a => a.id)).Nodup) :
    ∀ (k : Nat) (hk : k < l.length) (hkb : k < bs.length),
      bonusSum (l.get ⟨k, hk⟩).id (l.zip bs) = bs.get ⟨k, hkb⟩ := by
  induction l generalizing bs with
  | nil => intro k hk _; exact absurd hk (by simp)
  | cons a l ih =>
    intro k hk hkb
    cases bs with
    | nil => exact absurd hkb (by simp)
    | cons b bs =>
      rw [List.map_cons] at hnd
      have hnd' := List.nodup_cons.mp hnd
      cases k with
      | zero =>
        have hz : bonusSum a.id (l.zip bs) = 0 := by
          apply bonusSum_eq_zero
          intro p hp he
          exact hnd'.1 (he ▸ List.mem_map_of_mem _ (List.of_mem_zip hp).1)
        show bonusSum a.id ((a, b) :: l.zip bs) = b
        simp [bonusSum, hz]
      | succ k =>
        have hk' : k < l.length := by simpa using hk
        have hkb' : k < bs.length := by simpa using hkb
        have hne : ¬ a.id = (l.get ⟨k, hk'⟩).id := by
          intro he
          exact hnd'.1 (he ▸ List.mem_map_of_mem _ (l.get_mem _ _))
        show bonusSum (l.get ⟨k, hk'⟩).id ((a, b) :: l.zip bs) = bs.get ⟨k, hkb'⟩
        simp only [bonusSum]
        rw [if_neg hne, ih bs hnd'.2 k hk' hkb', zero_add]

theorem rankedCorrect_id_nodup (qz qn : Nat) (db : List PartialAnswer)
    (h : (db.map (fun a => a.id)).Nodup) :
    ((rankedCorrect qz qn db).map (fun a => a.id)).Nodup := by
  have hperm : List.Perm (rankedCorrect qz qn db) (db.filter (isCorrectFor qz qn)) :=
    sortOnKey_perm _ _
  have h2 : ((db.filter (isCorrectFor qz qn)).map (fun a => a.id)).Nodup :=
    h.sublist ((List.filter_sublist _).map _)
  exact ((hperm.map _).symm).nodup h2

theorem bonusSum_map_fst (i : Nat) (f : PartialAnswer → PartialAnswer)
    (hf : ∀ a, (f a).id = a.id) (ps : List (PartialAnswer × ℚ)) :
    bonusSum i (ps.map (Prod.map f id)) = bonusSum i ps := by
  induction ps with
  | nil => rfl
  | cons p ps ih => simp [bonusSum, Prod.map, hf, ih]

theorem rankedCorrect_map_addPoints (qz qn : Nat) (db : List PartialAnswer)
    (β : Nat → ℚ) :
    rankedCorrect qz qn (db.map (fun a => { a with points := a.points + β a.id }))
      = (rankedCorrect qz qn db).map (fun a => { a with points := a.points + β a.id }) := by
  unfold rankedCorrect
  rw [filter_map_comm (isCorrectFor qz qn)
      (fun a => { a with points := a.points + β a.id }) (fun a => rfl),
    sortOnKey_map (fun a : PartialAnswer => a.time_taken)
      (fun a => { a with points := a.points + β a.id }) (fun a => rfl)]

theorem rankBonus_map_addPoints (qz qn : Nat) (db : List PartialAnswer)
    (β : Nat → ℚ) (i : Nat) :
    rankBonus qz qn (db.map (fun a => { a with points := a.points + β a.id })) i
      = rankBonus qz qn db i := by
  unfold rankBonus
  rw [rankedCorrect_map_addPoints, ← List.map_take, List.zip_map_left,
    bonusSum_map_fst i
      (fun a => { a with points := a.points + β a.id }) (fun a => rfl)]

/-! ## C5/C6 helper lemmas -/

theorem filter_not_filter {α : Type} (p : α → Bool) (l : List α) :
    (l.filter (fun a => !(p a))).filter p = [] := by
  induction l with
  | nil => rfl
  | cons a as ih => by_cases h : p a <;> simp [List.filter_cons, h, ih]

theorem filter_not_self {α : Type} (p : α → Bool) (l : List α) :
    (l.filter (fun a => !(p a))).filter (fun a => !(p a))
      = l.filter (fun a => !(p a)) := by
  induction l with
  | nil => rfl
  | cons a as ih => by_cases h : p a <;> simp [List.filter_cons, h, ih]

/-- In every branch of the submission handler, the stored answers are the
deleted-then-reinserted rows with the rank bonuses applied. -/
theorem attempt_quiz_post_answers (quiz : Quiz) (questions : List Question)
    (q : Question) (student : String) (qindex : Nat) (v : SubmittedValue)
    (t nid st : Nat) (db : DB) :
    (attempt_quiz_post quiz questions q student qindex v t nid st db).answers
      = update_question_rank_bonuses quiz.id q.id
          (db.answers.filter (fun a => !(answerTriple quiz.id q.id student a))
            ++ [insertedAnswer quiz q student v t nid st]) := by
  unfold attempt_quiz_post
  dsimp only
  split_ifs <;> rfl

/-- On the last question with no existing result row, the handler appends
exactly the freshly aggregated result. -/
theorem attempt_quiz_post_results_new (quiz : Quiz) (questions : List Question)
    (q : Question) (student : String) (qindex : Nat) (v : SubmittedValue)
    (t nid st : Nat) (db : DB)
    (hlast : questions.length ≤ qindex + 1)
    (hempty : (db.results.filter
      (fun r => r.quiz_id == quiz.id && r.student == student)).isEmpty = true) :
    (attempt_quiz_post quiz questions q student qindex v t nid st db).results
      = db.results ++ [mkResult quiz.id student questions.length
          (studentAnswers quiz.id student
            (attempt_quiz_post quiz questions q student qindex v t nid st db).answers)] := by
  rw [attempt_quiz_post_answers]
  unfold attempt_quiz_post
  dsimp only
  rw [if_pos hlast, if_pos hempty]

/-- On the last question with an existing result row, the handler leaves
the result table unchanged. -/
theorem attempt_quiz_post_results_old (quiz : Quiz) (questions : List Question)
    (q : Question) (student : String) (qindex : Nat) (v : SubmittedValue)
    (t nid st : Nat) (db : DB)
    (hne : ¬ (db.results.filter
      (fun r => r.quiz_id == quiz.id && r.student == student)).isEmpty = true) :
    (attempt_quiz_post quiz questions q student qindex v t nid st db).results
      = db.results := by
  unfold attempt_quiz_post
  dsimp only
  split_ifs <;> rfl

theorem filter_triple_map (qz qn : Nat) (s : String) (β : Nat → ℚ)
    (l : List PartialAnswer) :
    (l.map (fun a => { a with points := a.points + β a.id })).filter
        (answerTriple qz qn s)
      = (l.filter (answerTriple qz qn s)).map
        (fun a => { a with points := a.points + β a.id }) :=
  filter_map_comm (answerTriple qz qn s)
    (fun a => { a with points := a.points + β a.id }) (fun _ => rfl) l

theorem filter_nottriple_map (qz qn : Nat) (s : String) (β : Nat → ℚ)
    (l : List PartialAnswer) :
    (l.map (fun a => { a with points := a.points + β a.id })).filter
        (fun a => !(answerTriple qz qn s a))
      = (l.filter (fun a => !(answerTriple qz qn s a))).map
        (fun a => { a with points := a.points + β a.id }) :=
  filter_map_comm (fun a => !(answerTriple qz qn s a))
    (fun a => { a with points := a.points + β a.id }) (fun _ => rfl) l

/-! ## C1/C9 helper lemmas -/

theorem mem_dedupFirst (l : List String) (s : String) :
    s ∈ dedupFirst l ↔ s ∈ l := by
  induction l using dedupFirst.induct with
  | case1 => rw [dedupFirst]
  | case2 a rest ih =>
    rw [dedupFirst]
    constructor
    · intro h
      rcases List.mem_cons.mp h with h | h
      · exact h ▸ List.mem_cons_self _ _
      · exact List.mem_cons_of_mem _ (List.mem_of_mem_filter (ih.mp h))
    · intro h
      rcases List.mem_cons.mp h with h | h
      · exact h ▸ List.mem_cons_self _ _
      · by_cases hs : s = a
        · exact hs ▸ List.mem_cons_self _ _
        · refine List.mem_cons_of_mem _ (ih.mpr ?_)
          refine List.mem_filter.mpr ⟨h, ?_⟩
          simp [hs]

theorem nodup_dedupFirst (l : List String) : (dedupFirst l).Nodup := by
  induction l using dedupFirst.induct with
  | case1 => rw [dedupFirst]; exact List.nodup_nil
  | case2 a rest ih =>
    rw [dedupFirst]
    refine List.nodup_cons.mpr ⟨?_, ih⟩
    intro hmem
    have := List.of_mem_filter ((mem_dedupFirst _ _).mp hmem)
    simp at this

theorem assignRanks_length (n : Nat) (l : List LBEntry) :
    (assignRanks n l).length = l.length := by
  induction l generalizing n with
  | nil => rfl
  | cons e es ih => simp [assignRanks, ih]

theorem assignRanks_get (l : List LBEntry) :
    ∀ (n i : Nat) (hi : i < (assignRanks n l).length) (hi' : i < l.length),
      (assignRanks n l).get ⟨i, hi⟩ = { l.get ⟨i, hi'⟩ with rank := n + i } := by
  induction l with
  | nil => intro n i hi hi'; exact absurd hi' (by simp)
  | cons e es ih =>
    intro n i hi hi'
    cases i with
    | zero => simp [assignRanks, List.get]
    | succ i =>
      have harith : n + 1 + i = n + (i + 1) := by omega
      simp only [assignRanks, List.get]
      rw [ih (n + 1) i (by simpa [assignRanks_length] using hi')
        (by simpa using hi'), harith]

theorem assignRanks_map_name (n : Nat) (l : List LBEntry) :
    (assignRanks n l).map (fun e => e.name) = l.map (fun e => e.name) := by
  induction l generalizing n with
  | nil => rfl
  | cons e es ih => simp [assignRanks, ih]

theorem groupByStudent_fst (qid : Nat) (db : List PartialAnswer) :
    (groupByStudent qid db).map (fun g => g.1)
      = dedupFirst ((db.filter (fun a => a.quiz_id == qid)).map
          (fun a => a.student)) := by
  unfold groupByStudent
  rw [List.map_map]
  exact List.map_id _

theorem mem_entries_fields (qid tq : Nat) (db : List PartialAnswer)
    (e : LBEntry) (he : e ∈ (groupByStudent qid db).map (mkLBEntry tq)) :
    e.points = (((db.filter (fun a => a.quiz_id == qid)).filter
        (fun a => a.student == e.name)).map (fun a => a.points)).sum ∧
    e.correct = (((db.filter (fun a => a.quiz_id == qid)).filter
        (fun a => a.student == e.name)).filter (fun a => a.is_correct)).length ∧
    e.time = (((db.filter (fun a => a.quiz_id == qid)).filter
        (fun a => a.student == e.name)).map (fun a => a.time_taken)).sum := by
  unfold groupByStudent at he
  dsimp only at he
  rcases List.mem_map.mp he with ⟨g, hg, rfl⟩
  rcases List.mem_map.mp hg with ⟨s, _, rfl⟩
  exact ⟨rfl, rfl, rfl⟩

theorem lbKey_le_iff (a b : LBEntry) :
    lbKey a ≤ lbKey b ↔
      (b.points < a.points ∨ (a.points = b.points ∧
        (b.correct < a.correct ∨ (a.correct = b.correct ∧ a.time ≤ b.time)))) := by
  unfold lbKey
  rw [Prod.Lex.le_iff]
  simp only [Prod.Lex.le_iff, neg_lt_neg_iff, neg_inj, Nat.cast_lt,
    Nat.cast_inj]

theorem assignRanks_get_fields (l : List LBEntry) (n i : Nat)
    (hi : i < (assignRanks n l).length) (hi' : i < l.length) :
    ((assignRanks n l).get ⟨i, hi⟩).points = (l.get ⟨i, hi'⟩).points ∧
    ((assignRanks n l).get ⟨i, hi⟩).correct = (l.get ⟨i, hi'⟩).correct ∧
    ((assignRanks n l).get ⟨i, hi⟩).time = (l.get ⟨i, hi'⟩).time ∧
    ((assignRanks n l).get ⟨i, hi⟩).rank = n + i := by
  rw [assignRanks_get l n i hi hi']
  exact ⟨rfl, rfl, rfl, rfl⟩

theorem mem_assignRanks (n : Nat) (l : List LBEntry) (e : LBEntry)
    (he : e ∈ assignRanks n l) :
    ∃ e' ∈ l, ∃ r, e = { e' with rank := r } := by
  induction l generalizing n with
  | nil => exact absurd he (by simp [assignRanks])
  | cons x xs ih =>
    rcases List.mem_cons.mp he with h | h
    · exact ⟨x, List.mem_cons_self _ _, n, h⟩
    · rcases ih (n + 1) h with ⟨e', he', r, hr⟩
      exact ⟨e', List.mem_cons_of_mem _ he', r, hr⟩

theorem entries_map_name (qid tq : Nat) (db : List PartialAnswer) :
    ((groupByStudent qid db).map (mkLBEntry tq)).map (fun e => e.name)
      = dedupFirst ((db.filter (fun a => a.quiz_id == qid)).map
          (fun a => a.student)) := by
  rw [List.map_map]
  exact groupByStudent_fst qid db

theorem qlEntries_length (n : Nat) (l : List PartialAnswer) :
    (qlEntries n l).length = l.length := by
  induction l generalizing n with
  | nil => rfl
  | cons a as ih => simp [qlEntries, ih]

theorem qlEntries_get (l : List PartialAnswer) :
    ∀ (n i : Nat) (hi : i < (qlEntries n l).length) (hi' : i < l.length),
      (qlEntries n l).get ⟨i, hi⟩
        = { rank := n + i, student := (l.get ⟨i, hi'⟩).student,
            time_taken := (l.get ⟨i, hi'⟩).time_taken,
            points := (l.get ⟨i, hi'⟩).points } := by
  induction l with
  | nil => intro n i hi hi'; exact absurd hi' (by simp)
  | cons a as ih =>
    intro n i hi hi'
    cases i with
    | zero => simp [qlEntries, List.get]
    | succ i =>
      have harith : n + 1 + i = n + (i + 1) := by omega
      simp only [qlEntries, List.get]
      rw [ih (n + 1) i (by simpa [qlEntries_length] using hi')
        (by simpa using hi'), harith]

/-! ## C3 theorem -/

/-- C3: handling the host's advance(+1) event at or past the last index
broadcasts `quiz_finished` and leaves the index unchanged; a
`load_next_question` broadcast always carries an index `< n`; and starting
in range, any number of advance events keeps the index within `0..n-1`. -/
theorem advance_saturates (n idx : Nat) :
    ((idx : Int) ≥ (n : Int) - 1 →
      admin_next_question n idx = (idx, SocketEvent.quizFinished)) ∧
    (∀ j, (admin_next_question n idx).2 = SocketEvent.loadNextQuestion j →
      j < n) ∧
    (idx < n → ∀ k, advanceRepeatedly n k idx < n) := by
  refine ⟨fun h => by simp [admin_next_question, h], ?_, ?_⟩
  · intro j hj
    by_cases h : (idx : Int) ≥ (n : Int) - 1
    · simp [admin_next_question, h] at hj
    · simp [admin_next_question, h] at hj
      push_neg at h
      omega
  · intro hidx k
    induction k generalizing idx with
    | zero => simpa [advanceRepeatedly] using hidx
    | succ k ih =>
      have hstep : (admin_next_question n idx).1 < n := by
        by_cases h : (idx : Int) ≥ (n : Int) - 1
        · simpa [admin_next_question, h] using hidx
        · simp [admin_next_question, h]
          push_neg at h
          omega
      simpa [advanceRepeatedly] using ih _ hstep

/-- Witness for `advance_saturates`: a 5-question quiz at index 4
broadcasts `quiz_finished` and stays at 4, and from index 0 seven advances
stay below 5. -/
theorem advance_saturates_witness :
    admin_next_question 5 4 = (4, SocketEvent.quizFinished) ∧
    advanceRepeatedly 5 7 0 < 5 :=
  ⟨(advance_saturates 5 4).1 (by decide),
   (advance_saturates 5 4).2.2 (by decide) 7⟩

/-! ## C2 theorem -/

/-- C2 (code bug evidence): with a 1-minute overall timer started at
`t = 1000`, `paused_seconds = 30` and `now = 1050`, the spec formula and
the host live-control view both report 40 seconds remaining, but the
participant quiz view reports 10 — it omits `paused_seconds` from the
elapsed-time computation. -/
theorem participant_timer_ignores_pause :
    specRemaining 60 1050 1000 30 = 40 ∧
    (live_control_timer
        { id := 1, has_timer := true, overall_timer := some 1,
          show_leaderboard_global := true, is_published := true,
          is_active := true, is_paused := false, paused_seconds := 30 }
        (some { current_qindex := 0, overall_started_at := some 1000 })
        1050).2 = 40 ∧
    attempt_quiz_remaining
        { id := 1, has_timer := true, overall_timer := some 1,
          show_leaderboard_global := true, is_published := true,
          is_active := true, is_paused := false, paused_seconds := 30 }
        (some { current_qindex := 0, overall_started_at := some 1000 })
        1050 = some 10 := by
  refine ⟨by decide, by decide, by decide⟩

/-! ## C4 theorem -/

/-- C4: one invocation of the rank-bonus awarder adds `rankBonus` to
every row's points, where the first, second and third correct answers of
the (quiz, question) in ascending time-taken order receive +3, +2, +1 and
every other row — incorrect answers included — receives 0 (fewer than
three correct answers receive correspondingly fewer bonuses); the ranking
is the ascending-time permutation of the correct answers; and the
operation is not idempotent: a second invocation on the result adds the
same bonuses again, so each of the three fastest gains twice its bonus
(the fastest 6) over two invocations. -/
theorem rank_bonus_awarder_spec (qz qn : Nat) (db : List PartialAnswer)
    (h : (db.map (fun a => a.id)).Nodup) :
    update_question_rank_bonuses qz qn db
      = db.map (fun a => { a with points := a.points + rankBonus qz qn db a.id }) ∧
    (List.Perm (rankedCorrect qz qn db) (db.filter (isCorrectFor qz qn)) ∧
      (rankedCorrect qz qn db).Pairwise (fun a b => a.time_taken ≤ b.time_taken)) ∧
    (∀ (k : Nat) (hk : k < (rankedCorrect qz qn db).length), k < 3 →
      rankBonus qz qn db ((rankedCorrect qz qn db).get ⟨k, hk⟩).id = bonusOfPos k) ∧
    (∀ a ∈ db, a.is_correct = false → rankBonus qz qn db a.id = 0) ∧
    update_question_rank_bonuses qz qn (update_question_rank_bonuses qz qn db)
      = db.map (fun a => { a with points := a.points + 2 * rankBonus qz qn db a.id }) := by
  refine ⟨update_eq_map qz qn db,
    ⟨sortOnKey_perm _ _, sortOnKey_sorted _ _⟩, ?_, ?_, ?_⟩
  · intro k hk hk3
    have hnd3 : (((rankedCorrect qz qn db).take 3).map (fun a => a.id)).Nodup :=
      (rankedCorrect_id_nodup qz qn db h).sublist
        ((List.take_sublist _ _).map _)
    have hkt : k < ((rankedCorrect qz qn db).take 3).length := by
      simp only [List.length_take]
      omega
    have hget : ((rankedCorrect qz qn db).take 3).get ⟨k, hkt⟩
        = (rankedCorrect qz qn db).get ⟨k, hk⟩ := by
      simp [List.get_eq_getElem, List.getElem_take]
    have hb : k < ([3, 2, 1] : List ℚ).length := by simpa using hk3
    have hzip := bonusSum_zip_get ((rankedCorrect qz qn db).take 3)
      [3, 2, 1] hnd3 k hkt hb
    unfold rankBonus
    rw [← hget, hzip]
    interval_cases k <;> rfl
  · intro a ha hcorr
    unfold rankBonus
    apply bonusSum_eq_zero
    intro p hp he
    have hp2 : p.1 ∈ rankedCorrect qz qn db :=
      List.mem_of_mem_take (List.of_mem_zip hp).1
    have hp3 : p.1 ∈ db.filter (isCorrectFor qz qn) :=
      (sortOnKey_perm _ _).mem_iff.mp hp2
    have hpdb : p.1 ∈ db := List.mem_of_mem_filter hp3
    have hpc : isCorrectFor qz qn p.1 = true := List.of_mem_filter hp3
    have hpa : p.1 = a := List.inj_on_of_nodup_map h hpdb ha he
    rw [hpa] at hpc
    simp [isCorrectFor, hcorr] at hpc
  · rw [update_eq_map, update_eq_map]
    simp only [List.map_map]
    have hrb := rankBonus_map_addPoints qz qn db (rankBonus qz qn db)
    refine congrArg (fun g => db.map g) (funext fun a => ?_)
    cases a with
    | mk i aqz aqn stu c tt pts sub =>
      simp only [Function.comp, hrb]
      simp [two_mul, add_assoc]

/-- Witness for `rank_bonus_awarder_spec`: on the concrete four-row
table, one invocation rewrites every row's points by its rank bonus. -/
theorem rank_bonus_awarder_spec_witness :
    ((c4Db.map (fun a => a.id)).Nodup) ∧
    update_question_rank_bonuses 1 1 c4Db
      = c4Db.map (fun a => { a with points := a.points + rankBonus 1 1 c4Db a.id }) :=
  ⟨by decide, (rank_bonus_awarder_spec 1 1 c4Db (by decide)).1⟩

/-! ## C1 theorems -/

/-- C1 counterexample: the full-leaderboard builder the application
imports (`build_leaderboard_payload` of
`app/services/leaderboard_service.py`) does not return the empty list
when the quiz's global leaderboard flag is unset — it never consults the
flag: on a one-answer table it returns one (unranked, unsorted) entry. -/
theorem full_leaderboard_flag_ignored :
    wQuizNoLB.show_leaderboard_global = false ∧
    (build_leaderboard_payload_services wQuizNoLB.id [wQuestion]
        [⟨1, 1, 1, "ann", true, 5, 1, 100⟩]).map (fun r => r.student)
      = ["ann"] ∧
    build_leaderboard_payload_services wQuizNoLB.id [wQuestion]
        [⟨1, 1, 1, "ann", true, 5, 1, 100⟩] ≠ [] := by
  refine ⟨rfl, ?_, ?_⟩
  · simp [build_leaderboard_payload_services, groupByStudent, dedupFirst,
      wQuizNoLB, wQuiz, wQuestion]
  · simp [build_leaderboard_payload_services, groupByStudent, dedupFirst,
      wQuizNoLB, wQuiz, wQuestion]

/-- C1 (amended): the `app/routes/leaderboard_service.py` variant of the
full-leaderboard builder behaves as the claim states — empty when the
quiz's global flag is unset; one entry per participant, aggregating that
participant's answers (summed points, correct count, summed time); sorted
by descending points, then descending correct count, then ascending total
time; sequential 1-based ranks assigned after sorting, so of two
participants with equal points and equal correct counts the one with
smaller total time gets the smaller rank.  The builder the application
imports performs only the grouping (see the counterexample); its caller,
the leaderboard API endpoint, is what returns empty when the flag is
unset. -/
theorem full_leaderboard_routes_spec (qz : Quiz) (qid : Nat)
    (questions : List Question) (db : List PartialAnswer) :
    (qz.show_leaderboard_global = false →
      build_leaderboard_payload_routes (some qz) qid questions db = [] ∧
      api_leaderboard (some qz) qid questions db = []) ∧
    (qz.show_leaderboard_global = true →
      (((build_leaderboard_payload_routes (some qz) qid questions db).map
          (fun e => e.name)).Nodup ∧
        (∀ s, s ∈ (build_leaderboard_payload_routes (some qz) qid questions db).map
            (fun e => e.name)
          ↔ s ∈ (db.filter (fun a => a.quiz_id == qid)).map
            (fun a => a.student))) ∧
      (∀ e ∈ build_leaderboard_payload_routes (some qz) qid questions db,
        e.points = (((db.filter (fun a => a.quiz_id == qid)).filter
            (fun a => a.student == e.name)).map (fun a => a.points)).sum ∧
        e.correct = (((db.filter (fun a => a.quiz_id == qid)).filter
            (fun a => a.student == e.name)).filter
            (fun a => a.is_correct)).length ∧
        e.time = (((db.filter (fun a => a.quiz_id == qid)).filter
            (fun a => a.student == e.name)).map (fun a => a.time_taken)).sum) ∧
      (∀ (i : Nat) (hi : i < (build_leaderboard_payload_routes (some qz) qid
          questions db).length),
        ((build_leaderboard_payload_routes (some qz) qid questions db).get
          ⟨i, hi⟩).rank = i + 1) ∧
      (∀ (i j : Nat)
          (hi : i < (build_leaderboard_payload_routes (some qz) qid
            questions db).length)
          (hj : j < (build_leaderboard_payload_routes (some qz) qid
            questions db).length), i < j →
        (((build_leaderboard_payload_routes (some qz) qid questions db).get
            ⟨j, hj⟩).points
          < ((build_leaderboard_payload_routes (some qz) qid questions db).get
            ⟨i, hi⟩).points) ∨
        (((build_leaderboard_payload_routes (some qz) qid questions db).get
            ⟨i, hi⟩).points
          = ((build_leaderboard_payload_routes (some qz) qid questions db).get
            ⟨j, hj⟩).points ∧
         ((((build_leaderboard_payload_routes (some qz) qid questions db).get
            ⟨j, hj⟩).correct
          < ((build_leaderboard_payload_routes (some qz) qid questions db).get
            ⟨i, hi⟩).correct) ∨
          (((build_leaderboard_payload_routes (some qz) qid questions db).get
            ⟨i, hi⟩).correct
            = ((build_leaderboard_payload_routes (some qz) qid questions db).get
              ⟨j, hj⟩).correct ∧
           ((build_leaderboard_payload_routes (some qz) qid questions db).get
            ⟨i, hi⟩).time
            ≤ ((build_leaderboard_payload_routes (some qz) qid questions db).get
              ⟨j, hj⟩).time)))) ∧
      (∀ (i j : Nat)
          (hi : i < (build_leaderboard_payload_routes (some qz) qid
            questions db).length)
          (hj : j < (build_leaderboard_payload_routes (some qz) qid
            questions db).length),
        ((build_leaderboard_payload_routes (some qz) qid questions db).get
          ⟨i, hi⟩).points
          = ((build_leaderboard_payload_routes (some qz) qid questions db).get
            ⟨j, hj⟩).points →
        ((build_leaderboard_payload_routes (some qz) qid questions db).get
          ⟨i, hi⟩).correct
          = ((build_leaderboard_payload_routes (some qz) qid questions db).get
            ⟨j, hj⟩).correct →
        ((build_leaderboard_payload_routes (some qz) qid questions db).get
          ⟨i, hi⟩).time
          < ((build_leaderboard_payload_routes (some qz) qid questions db).get
            ⟨j, hj⟩).time →
        ((build_leaderboard_payload_routes (some qz) qid questions db).get
          ⟨i, hi⟩).rank
          < ((build_leaderboard_payload_routes (some qz) qid questions db).get
            ⟨j, hj⟩).rank)) := by
  constructor
  · intro hflag
    constructor
    · unfold build_leaderboard_payload_routes
      dsimp only
      rw [if_pos hflag]
    · unfold api_leaderboard
      dsimp only
      rw [if_pos hflag]
  · intro hflag
    have hcond : ¬ qz.show_leaderboard_global = false := by
      rw [hflag]
      simp
    have hR : build_leaderboard_payload_routes (some qz) qid questions db
        = assignRanks 1 (sortOnKey lbKey ((groupByStudent qid db).map
            (mkLBEntry ((questions.filter (fun q => q.quiz_id == qid)).length)))) := by
      unfold build_leaderboard_payload_routes
      dsimp only
      rw [if_neg hcond]
    rw [hR]
    have hperm : List.Perm
        (sortOnKey lbKey ((groupByStudent qid db).map
          (mkLBEntry ((questions.filter (fun q => q.quiz_id == qid)).length))))
        ((groupByStudent qid db).map
          (mkLBEntry ((questions.filter (fun q => q.quiz_id == qid)).length))) :=
      sortOnKey_perm _ _
    have hpair : ∀ (i j : Nat)
        (hi : i < (sortOnKey lbKey ((groupByStudent qid db).map
          (mkLBEntry ((questions.filter (fun q => q.quiz_id == qid)).length)))).length)
        (hj : j < (sortOnKey lbKey ((groupByStudent qid db).map
          (mkLBEntry ((questions.filter (fun q => q.quiz_id == qid)).length)))).length),
        i < j →
        lbKey ((sortOnKey lbKey ((groupByStudent qid db).map
          (mkLBEntry ((questions.filter (fun q => q.quiz_id == qid)).length)))).get ⟨i, hi⟩)
          ≤ lbKey ((sortOnKey lbKey ((groupByStudent qid db).map
            (mkLBEntry ((questions.filter (fun q => q.quiz_id == qid)).length)))).get ⟨j, hj⟩) := by
      intro i j hi hj hij
      have hs := sortOnKey_sorted lbKey ((groupByStudent qid db).map
        (mkLBEntry ((questions.filter (fun q => q.quiz_id == qid)).length)))
      rw [List.pairwise_iff_getElem] at hs
      simpa [List.get_eq_getElem] using hs i j hi hj hij
    refine ⟨⟨?_, ?_⟩, ?_, ?_, ?_, ?_⟩
    · rw [assignRanks_map_name]
      refine ((hperm.map (fun e => e.name)).nodup_iff).mpr ?_
      rw [entries_map_name]
      exact nodup_dedupFirst _
    · intro s
      rw [assignRanks_map_name]
      rw [(hperm.map (fun e => e.name)).mem_iff, entries_map_name,
        mem_dedupFirst]
    · intro e he
      rcases mem_assignRanks 1 _ e he with ⟨e', he', r, rfl⟩
      have he'' : e' ∈ (groupByStudent qid db).map
          (mkLBEntry ((questions.filter (fun q => q.quiz_id == qid)).length)) :=
        hperm.mem_iff.mp he'
      exact mem_entries_fields qid _ db e' he''
    · intro i hi
      have hiS : i < (sortOnKey lbKey ((groupByStudent qid db).map
          (mkLBEntry ((questions.filter (fun q => q.quiz_id == qid)).length)))).length := by
        rwa [assignRanks_length] at hi
      rw [(assignRanks_get_fields _ 1 i hi hiS).2.2.2]
      omega
    · intro i j hi hj hij
      have hiS : i < (sortOnKey lbKey ((groupByStudent qid db).map
          (mkLBEntry ((questions.filter (fun q => q.quiz_id == qid)).length)))).length := by
        rwa [assignRanks_length] at hi
      have hjS : j < (sortOnKey lbKey ((groupByStudent qid db).map
          (mkLBEntry ((questions.filter (fun q => q.quiz_id == qid)).length)))).length := by
        rwa [assignRanks_length] at hj
      have hk := (lbKey_le_iff _ _).mp (hpair i j hiS hjS hij)
      rcases assignRanks_get_fields _ 1 i hi hiS with ⟨hpi, hci, hti, _⟩
      rcases assignRanks_get_fields _ 1 j hj hjS with ⟨hpj, hcj, htj, _⟩
      rw [hpi, hci, hti, hpj, hcj, htj]
      exact hk
    · intro i j hi hj hp hc ht
      have hiS : i < (sortOnKey lbKey ((groupByStudent qid db).map
          (mkLBEntry ((questions.filter (fun q => q.quiz_id == qid)).length)))).length := by
        rwa [assignRanks_length] at hi
      have hjS : j < (sortOnKey lbKey ((groupByStudent qid db).map
          (mkLBEntry ((questions.filter (fun q => q.quiz_id == qid)).length)))).length := by
        rwa [assignRanks_length] at hj
      rcases assignRanks_get_fields _ 1 i hi hiS with ⟨hpi, hci, hti, hri⟩
      rcases assignRanks_get_fields _ 1 j hj hjS with ⟨hpj, hcj, htj, hrj⟩
      rw [hpi, hpj] at hp
      rw [hci, hcj] at hc
      rw [hti, htj] at ht
      rw [hri, hrj]
      have hij : i < j := by
        rcases lt_trichotomy i j with h | h | h
        · exact h
        · subst h
          exact absurd ht (lt_irrefl _)
        · have hk := (lbKey_le_iff _ _).mp (hpair j i hjS hiS h)
          rcases hk with hk | ⟨hpe, hk⟩
          · exact absurd hk (by rw [hp]; exact lt_irrefl _)
          · rcases hk with hk | ⟨hce, hk⟩
            · exact absurd hk (by rw [hc]; exact lt_irrefl _)
            · exact absurd ht (not_lt.mpr hk)
      omega

/-- Witness for `full_leaderboard_routes_spec`: with the flag unset both
the routes builder and the API return empty; with it set the entry names
are distinct, on a concrete two-participant table. -/
theorem full_leaderboard_routes_spec_witness :
    build_leaderboard_payload_routes (some wQuizNoLB) 1 [wQuestion]
      [⟨1, 1, 1, "A", true, 50, 10, 100⟩, ⟨2, 1, 1, "B", true, 40, 10, 101⟩]
      = [] ∧
    api_leaderboard (some wQuizNoLB) 1 [wQuestion]
      [⟨1, 1, 1, "A", true, 50, 10, 100⟩, ⟨2, 1, 1, "B", true, 40, 10, 101⟩]
      = [] ∧
    ((build_leaderboard_payload_routes (some wQuiz) 1 [wQuestion]
      [⟨1, 1, 1, "A", true, 50, 10, 100⟩, ⟨2, 1, 1, "B", true, 40, 10, 101⟩]).map
      (fun e => e.name)).Nodup :=
  ⟨((full_leaderboard_routes_spec wQuizNoLB 1 [wQuestion]
      [⟨1, 1, 1, "A", true, 50, 10, 100⟩, ⟨2, 1, 1, "B", true, 40, 10, 101⟩]).1
      rfl).1,
   ((full_leaderboard_routes_spec wQuizNoLB 1 [wQuestion]
      [⟨1, 1, 1, "A", true, 50, 10, 100⟩, ⟨2, 1, 1, "B", true, 40, 10, 101⟩]).1
      rfl).2,
   (((full_leaderboard_routes_spec wQuiz 1 [wQuestion]
      [⟨1, 1, 1, "A", true, 50, 10, 100⟩, ⟨2, 1, 1, "B", true, 40, 10, 101⟩]).2
      rfl).1).1⟩

/-! ## C9 theorems -/

/-- C9 counterexample: for a quiz without per-question timing, the
question leaderboard served by the API is ordered by submission timestamp
only — not by ascending time-taken as the claim states: a slower answer
submitted earlier is listed first. -/
theorem question_leaderboard_order_counterexample :
    wQuiz.has_timer = false ∧ wQuiz.show_leaderboard_global = true ∧
    wQuestion.show_leaderboard = true ∧
    (api_question_leaderboard (some wQuiz) (some wQuestion) 1 1
        [⟨1, 1, 1, "A", true, 10, 1, 1⟩, ⟨2, 1, 1, "B", true, 5, 1, 2⟩]).map
        (fun e => e.time_taken) = [10, 5] ∧
    ¬ List.Pairwise (fun a b => a ≤ b)
        ((api_question_leaderboard (some wQuiz) (some wQuestion) 1 1
          [⟨1, 1, 1, "A", true, 10, 1, 1⟩, ⟨2, 1, 1, "B", true, 5, 1, 2⟩]).map
          (fun e => e.time_taken)) := by
  refine ⟨rfl, rfl, rfl, ?_, ?_⟩ <;> decide

/-- C9 (amended): the question-leaderboard API returns empty when the
quiz is missing, the quiz-global flag is unset, or the question's
per-question flag is unset; otherwise it serves the ranked rows of the
imported service: only correct answers of the (quiz, question), capped to
10, all of them when at most 10 exist, each entry carrying rank = its
1-based position and the underlying answer's fields; the rows are ordered
by ascending (time-taken, submission timestamp) when the quiz has
per-question timing, and by ascending submission timestamp alone when it
does not (this is where the claim's unconditional time-taken ordering
fails). -/
theorem question_leaderboard_spec (qz : Quiz) (qu : Question)
    (qid qnid : Nat) (db : List PartialAnswer) :
    (api_question_leaderboard none (some qu) qid qnid db = []) ∧
    (qz.show_leaderboard_global = false →
      api_question_leaderboard (some qz) (some qu) qid qnid db = []) ∧
    (qu.show_leaderboard = false →
      api_question_leaderboard (some qz) (some qu) qid qnid db = []) ∧
    (qz.show_leaderboard_global = true → qu.show_leaderboard = true →
      api_question_leaderboard (some qz) (some qu) qid qnid db
        = qlEntries 1 (questionRanking qz qid qnid db)) ∧
    ((questionRanking qz qid qnid db).length ≤ 10) ∧
    (∀ a ∈ questionRanking qz qid qnid db,
      isCorrectFor qid qnid a = true) ∧
    ((db.filter (isCorrectFor qid qnid)).length ≤ 10 →
      List.Perm (questionRanking qz qid qnid db)
        (db.filter (isCorrectFor qid qnid))) ∧
    (qz.has_timer = true →
      (questionRanking qz qid qnid db).Pairwise (fun a b =>
        a.time_taken < b.time_taken ∨
        (a.time_taken = b.time_taken ∧ a.submitted_at ≤ b.submitted_at))) ∧
    (qz.has_timer = false →
      (questionRanking qz qid qnid db).Pairwise (fun a b =>
        a.submitted_at ≤ b.submitted_at)) ∧
    (∀ (i : Nat) (hi : i < (qlEntries 1 (questionRanking qz qid qnid db)).length)
        (hi' : i < (questionRanking qz qid qnid db).length),
      ((qlEntries 1 (questionRanking qz qid qnid db)).get ⟨i, hi⟩).rank = i + 1 ∧
      ((qlEntries 1 (questionRanking qz qid qnid db)).get ⟨i, hi⟩).student
        = ((questionRanking qz qid qnid db).get ⟨i, hi'⟩).student ∧
      ((qlEntries 1 (questionRanking qz qid qnid db)).get ⟨i, hi⟩).time_taken
        = ((questionRanking qz qid qnid db).get ⟨i, hi'⟩).time_taken ∧
      ((qlEntries 1 (questionRanking qz qid qnid db)).get ⟨i, hi⟩).points
        = ((questionRanking qz qid qnid db).get ⟨i, hi'⟩).points) := by
  refine ⟨rfl, ?_, ?_, ?_, ?_, ?_, ?_, ?_, ?_, ?_⟩
  · intro h
    simp [api_question_leaderboard, h]
  · intro h
    by_cases hf : qz.show_leaderboard_global = false <;>
      simp [api_question_leaderboard, hf, h]
  · intro h1 h2
    simp [api_question_leaderboard, h1, h2,
      get_question_leaderboard_services]
  · unfold questionRanking
    dsimp only
    split_ifs <;> simp [List.length_take]
  · intro a ha
    unfold questionRanking at ha
    dsimp only at ha
    split_ifs at ha with h <;>
      exact List.of_mem_filter
        ((sortOnKey_perm _ _).mem_iff.mp (List.mem_of_mem_take ha))
  · intro hlen
    unfold questionRanking
    dsimp only
    have h1 : (sortOnKey (fun a : PartialAnswer =>
        toLex (a.time_taken, a.submitted_at))
        (db.filter (isCorrectFor qid qnid))).length ≤ 10 :=
      le_trans (le_of_eq ((sortOnKey_perm _ _).length_eq)) hlen
    have h2 : (sortOnKey (fun a : PartialAnswer => a.submitted_at)
        (db.filter (isCorrectFor qid qnid))).length ≤ 10 :=
      le_trans (le_of_eq ((sortOnKey_perm _ _).length_eq)) hlen
    split_ifs
    · rw [List.take_of_length_le h1]
      exact sortOnKey_perm _ _
    · rw [List.take_of_length_le h2]
      exact sortOnKey_perm _ _
  · intro ht
    unfold questionRanking
    dsimp only
    rw [if_pos ht]
    refine List.Pairwise.sublist (List.take_sublist _ _) ?_
    refine (sortOnKey_sorted (fun a : PartialAnswer =>
      toLex (a.time_taken, a.submitted_at)) _).imp ?_
    intro a b h
    exact (Prod.Lex.le_iff _ _).mp h
  · intro ht
    unfold questionRanking
    dsimp only
    rw [if_neg (by rw [ht]; simp)]
    exact List.Pairwise.sublist (List.take_sublist _ _)
      (sortOnKey_sorted (fun a : PartialAnswer => a.submitted_at) _)
  · intro i hi hi'
    rw [qlEntries_get _ 1 i hi hi']
    exact ⟨Nat.add_comm 1 i, rfl, rfl, rfl⟩

/-- Witness for `question_leaderboard_spec`: the flag-unset and
per-question-flag-unset cases both return empty on a concrete table. -/
theorem question_leaderboard_spec_witness :
    api_question_leaderboard (some wQuizNoLB) (some wQuestion) 1 1
      [⟨1, 1, 1, "A", true, 10, 1, 1⟩] = [] ∧
    api_question_leaderboard (some wQuiz)
      (some { wQuestion with show_leaderboard := false }) 1 1
      [⟨1, 1, 1, "A", true, 10, 1, 1⟩] = [] ∧
    (questionRanking wQuiz 1 1 [⟨1, 1, 1, "A", true, 10, 1, 1⟩]).length ≤ 10 :=
  ⟨(question_leaderboard_spec wQuizNoLB wQuestion 1 1
      [⟨1, 1, 1, "A", true, 10, 1, 1⟩]).2.1 rfl,
   (question_leaderboard_spec wQuiz
      { wQuestion with show_leaderboard := false } 1 1
      [⟨1, 1, 1, "A", true, 10, 1, 1⟩]).2.2.1 rfl,
   (question_leaderboard_spec wQuiz wQuestion 1 1
      [⟨1, 1, 1, "A", true, 10, 1, 1⟩]).2.2.2.2.1⟩

/-! ## C6 theorem -/

/-- C6: after any submission, exactly one `PartialAnswer` row exists for
the (quiz, question, participant) triple — the prior row is deleted and
the fresh row reflects the latest submission's correctness, time taken
and timestamp — and the rows of every other triple are untouched in all
fields except the rank-bonus points. -/
theorem last_write_wins (quiz : Quiz) (questions : List Question)
    (q : Question) (student : String) (qindex : Nat) (v : SubmittedValue)
    (t nid st : Nat) (db : DB) :
    ((attempt_quiz_post quiz questions q student qindex v t nid st db).answers.filter
        (answerTriple quiz.id q.id student)).map
        (fun a => (a.is_correct, a.time_taken, a.submitted_at))
      = [(check_answer_correctness q v, t, st)] ∧
    ((attempt_quiz_post quiz questions q student qindex v t nid st db).answers.filter
        (fun a => !(answerTriple quiz.id q.id student a))).map
        (fun a => (a.id, a.quiz_id, a.question_id, a.student, a.is_correct,
          a.time_taken, a.submitted_at))
      = (db.answers.filter (fun a => !(answerTriple quiz.id q.id student a))).map
        (fun a => (a.id, a.quiz_id, a.question_id, a.student, a.is_correct,
          a.time_taken, a.submitted_at)) := by
  rw [attempt_quiz_post_answers, update_eq_map]
  have htri : answerTriple quiz.id q.id student
      (insertedAnswer quiz q student v t nid st) = true := by
    simp [answerTriple, insertedAnswer]
  constructor
  · rw [filter_triple_map, List.filter_append, filter_not_filter,
      List.nil_append,
      show ([insertedAnswer quiz q student v t nid st] : List PartialAnswer).filter
          (answerTriple quiz.id q.id student)
        = [insertedAnswer quiz q student v t nid st] by simp [htri]]
    rfl
  · rw [filter_nottriple_map, List.filter_append, filter_not_self,
      show ([insertedAnswer quiz q student v t nid st] : List PartialAnswer).filter
          (fun a => !(answerTriple quiz.id q.id student a)) = [] by simp [htri],
      List.append_nil, List.map_map]
    exact congrArg (fun g => List.map g _) (funext fun a => rfl)

/-! ## C5 theorem -/

/-- C5: on submission of the last question, a session `Result` row for
(quiz, participant) is created with the participant's aggregates exactly
when none exists; an existing row blocks creation and is left unchanged
(the whole result table is untouched); a per-pair at-most-one invariant is
preserved; rows of other (quiz, participant) pairs are never affected; and
a repeated identical submission leaves the result table of the first
submission unchanged. -/
theorem session_result_once (quiz : Quiz) (questions : List Question)
    (q : Question) (student : String) (qindex : Nat) (v : SubmittedValue)
    (t nid st : Nat) (db : DB)
    (hlast : questions.length ≤ qindex + 1) :
    ((db.results.filter
        (fun r => r.quiz_id == quiz.id && r.student == student)).length = 0 →
      (attempt_quiz_post quiz questions q student qindex v t nid st db).results
        = db.results ++ [mkResult quiz.id student questions.length
            (studentAnswers quiz.id student
              (attempt_quiz_post quiz questions q student qindex v t nid st db).answers)] ∧
      ((attempt_quiz_post quiz questions q student qindex v t nid st db).results.filter
          (fun r => r.quiz_id == quiz.id && r.student == student)).length = 1) ∧
    (0 < (db.results.filter
        (fun r => r.quiz_id == quiz.id && r.student == student)).length →
      (attempt_quiz_post quiz questions q student qindex v t nid st db).results
        = db.results) ∧
    ((db.results.filter
        (fun r => r.quiz_id == quiz.id && r.student == student)).length ≤ 1 →
      ((attempt_quiz_post quiz questions q student qindex v t nid st db).results.filter
          (fun r => r.quiz_id == quiz.id && r.student == student)).length ≤ 1) ∧
    (∀ (qid2 : Nat) (s2 : String), ¬(qid2 = quiz.id ∧ s2 = student) →
      (attempt_quiz_post quiz questions q student qindex v t nid st db).results.filter
          (fun r => r.quiz_id == qid2 && r.student == s2)
        = db.results.filter (fun r => r.quiz_id == qid2 && r.student == s2)) ∧
    (attempt_quiz_post quiz questions q student qindex v t nid st
        (attempt_quiz_post quiz questions q student qindex v t nid st db)).results
      = (attempt_quiz_post quiz questions q student qindex v t nid st db).results := by
  have hc1 : (db.results.filter
      (fun r => r.quiz_id == quiz.id && r.student == student)).length = 0 →
      (attempt_quiz_post quiz questions q student qindex v t nid st db).results
        = db.results ++ [mkResult quiz.id student questions.length
            (studentAnswers quiz.id student
              (attempt_quiz_post quiz questions q student qindex v t nid st db).answers)] ∧
      ((attempt_quiz_post quiz questions q student qindex v t nid st db).results.filter
          (fun r => r.quiz_id == quiz.id && r.student == student)).length = 1 := by
    intro h0
    have hnil : db.results.filter
        (fun r => r.quiz_id == quiz.id && r.student == student) = [] :=
      List.length_eq_zero.mp h0
    have hres := attempt_quiz_post_results_new quiz questions q student
      qindex v t nid st db hlast (by rw [hnil]; rfl)
    refine ⟨hres, ?_⟩
    rw [hres, List.filter_append, hnil, List.nil_append]
    simp [mkResult]
  have hc2 : 0 < (db.results.filter
      (fun r => r.quiz_id == quiz.id && r.student == student)).length →
      (attempt_quiz_post quiz questions q student qindex v t nid st db).results
        = db.results := by
    intro hpos
    apply attempt_quiz_post_results_old
    intro hemp
    rw [List.isEmpty_iff] at hemp
    rw [hemp] at hpos
    exact absurd hpos (by simp)
  refine ⟨hc1, hc2, ?_, ?_, ?_⟩
  · intro hle
    rcases Nat.eq_zero_or_pos (db.results.filter
        (fun r => r.quiz_id == quiz.id && r.student == student)).length with h0 | hpos
    · rw [(hc1 h0).2]
    · rw [hc2 hpos]
      exact hle
  · intro qid2 s2 hne
    rcases Nat.eq_zero_or_pos (db.results.filter
        (fun r => r.quiz_id == quiz.id && r.student == student)).length with h0 | hpos
    · rw [(hc1 h0).1, List.filter_append]
      have hrow : List.filter (fun r => r.quiz_id == qid2 && r.student == s2)
          [mkResult quiz.id student questions.length
            (studentAnswers quiz.id student
              (attempt_quiz_post quiz questions q student qindex v t nid st db).answers)]
          = [] := by
        simp only [List.filter_cons, List.filter_nil, mkResult]
        rw [if_neg]
        intro hcond
        rw [Bool.and_eq_true, beq_iff_eq, beq_iff_eq] at hcond
        exact hne ⟨hcond.1.symm, hcond.2.symm⟩
      rw [hrow, List.append_nil]
    · rw [hc2 hpos]
  · rcases Nat.eq_zero_or_pos (db.results.filter
        (fun r => r.quiz_id == quiz.id && r.student == student)).length with h0 | hpos
    · apply attempt_quiz_post_results_old
      rw [(hc1 h0).1, List.filter_append]
      have hmk : List.filter (fun r => r.quiz_id == quiz.id && r.student == student)
          [mkResult quiz.id student questions.length
            (studentAnswers quiz.id student
              (attempt_quiz_post quiz questions q student qindex v t nid st db).answers)]
          = [mkResult quiz.id student questions.length
            (studentAnswers quiz.id student
              (attempt_quiz_post quiz questions q student qindex v t nid st db).answers)] := by
        simp [mkResult]
      rw [hmk]
      simp [List.isEmpty_iff]
    · apply attempt_quiz_post_results_old
      rw [hc2 hpos]
      intro hemp
      rw [List.isEmpty_iff] at hemp
      rw [hemp] at hpos
      exact absurd hpos (by simp)

/-- Witness for `session_result_once`: a first final-question submission
on an empty store creates exactly the aggregated result row. -/
theorem session_result_once_witness :
    ((DB.mk [] []).results.filter
        (fun r => r.quiz_id == wQuiz.id && r.student == "ann")).length = 0 ∧
    (attempt_quiz_post wQuiz [wQuestion] wQuestion "ann" 0
        (SubmittedValue.str "A" none) 3 1 100 (DB.mk [] [])).results
      = (DB.mk [] []).results ++
        [mkResult wQuiz.id "ann" ([wQuestion] : List Question).length
          (studentAnswers wQuiz.id "ann"
            (attempt_quiz_post wQuiz [wQuestion] wQuestion "ann" 0
              (SubmittedValue.str "A" none) 3 1 100 (DB.mk [] [])).answers)] :=
  ⟨rfl, ((session_result_once wQuiz [wQuestion] wQuestion "ann" 0
      (SubmittedValue.str "A" none) 3 1 100 (DB.mk [] [])
      (by decide)).1 rfl).1⟩

/-! ## C7 theorem -/

/-- C7: for a correct answer, both scoring functions apply exactly the
claimed speed multiplier (1.5 / 1.2 / 1.0 / 0.8 at ratio thresholds 0.3,
0.6, 0.9) when the quiz has per-question timing and the question a
positive time limit, and return the base points unmodified otherwise
(`ScoringService.calculate_points` outside its multi-select partial-credit
case, with its hard-coded base of 1). -/
theorem speed_multiplier_spec (q : Question) (quiz : Quiz) (t : Nat)
    (tl cc tc : Nat) (qt : String) (ht : Bool) :
    (quiz.has_timer = true → 0 < q.time_limit →
      calculate_question_points q true t quiz =
        basePoints q * speedMultiplier ((t : ℚ) / (q.time_limit : ℚ))) ∧
    (¬(quiz.has_timer = true ∧ 0 < q.time_limit) →
      calculate_question_points q true t quiz = basePoints q) ∧
    (¬(qt = "checkbox" ∧ 1 < tc) → ht = true → 0 < tl →
      ScoringService.calculate_points true t tl ht qt cc tc =
        1 * speedMultiplier ((t : ℚ) / (tl : ℚ))) ∧
    (¬(qt = "checkbox" ∧ 1 < tc) → ¬(ht = true ∧ 0 < tl) →
      ScoringService.calculate_points true t tl ht qt cc tc = 1) := by
  refine ⟨?_, ?_, ?_, ?_⟩
  · intro h1 h2
    have h2' : q.time_limit ≠ 0 := Nat.pos_iff_ne_zero.mp h2
    simp only [calculate_question_points, speedMultiplier, h1, h2, h2',
      reduceCtorEq, if_false, ne_eq, not_false_eq_true, and_self, if_true,
      true_and]
    generalize ((t : ℚ) / (q.time_limit : ℚ)) = r
    split_ifs <;> linarith
  · intro h
    simp only [calculate_question_points, reduceCtorEq, if_false]
    rw [if_neg]
    intro ⟨ha, _, hc⟩
    exact h ⟨ha, hc⟩
  · intro hcb h1 h2
    have h2' : tl ≠ 0 := Nat.pos_iff_ne_zero.mp h2
    simp only [ScoringService.calculate_points, speedMultiplier, hcb, h1,
      h2, h2', reduceCtorEq, if_false, ne_eq, not_false_eq_true, and_self,
      if_true, true_and]
    generalize ((t : ℚ) / (tl : ℚ)) = r
    split_ifs <;> linarith
  · intro hcb h
    simp only [ScoringService.calculate_points, reduceCtorEq, if_false,
      hcb]
    rw [if_neg]
    intro ⟨ha, _, hc⟩
    exact h ⟨ha, hc⟩

/-- Witness for `speed_multiplier_spec`: a correct answer in 2 of 10
seconds on a timed quiz scores `2 × 1.5 = 3`, and with the timer disabled
scores the base 2. -/
theorem speed_multiplier_spec_witness :
    calculate_question_points
        { id := 1, quiz_id := 1, order := 0,
          question_type := "multiple-choice", correct_answers := ["A"],
          answer := "A", points := 2, time_limit := 10,
          show_leaderboard := true }
        true 2
        { id := 1, has_timer := true, overall_timer := none,
          show_leaderboard_global := true, is_published := true,
          is_active := true, is_paused := false, paused_seconds := 0 } =
      2 * (3/2) ∧
    calculate_question_points
        { id := 1, quiz_id := 1, order := 0,
          question_type := "multiple-choice", correct_answers := ["A"],
          answer := "A", points := 2, time_limit := 10,
          show_leaderboard := true }
        true 2
        { id := 1, has_timer := false, overall_timer := none,
          show_leaderboard_global := true, is_published := true,
          is_active := true, is_paused := false, paused_seconds := 0 } =
      2 := by
  constructor
  · have h := (speed_multiplier_spec
      { id := 1, quiz_id := 1, order := 0,
        question_type := "multiple-choice", correct_answers := ["A"],
        answer := "A", points := 2, time_limit := 10,
        show_leaderboard := true }
      { id := 1, has_timer := true, overall_timer := none,
        show_leaderboard_global := true, is_published := true,
        is_active := true, is_paused := false, paused_seconds := 0 }
      2 10 1 1 "multiple-choice" true).1 (by decide) (by decide)
    rw [h]
    norm_num [basePoints, speedMultiplier]
  · have h := (speed_multiplier_spec
      { id := 1, quiz_id := 1, order := 0,
        question_type := "multiple-choice", correct_answers := ["A"],
        answer := "A", points := 2, time_limit := 10,
        show_leaderboard := true }
      { id := 1, has_timer := false, overall_timer := none,
        show_leaderboard_global := true, is_published := true,
        is_active := true, is_paused := false, paused_seconds := 0 }
      2 10 1 1 "multiple-choice" true).2.1 (by simp)
    rw [h]
    norm_num [basePoints]

/-! ## C8 theorem -/

/-- C8: the checkbox validator accepts exactly when the parsed selection
set equals the correct-answer set; falsy, `"No Answer"` and unparsable
values are rejected, and any set inequality (strict subset, superset or
partial overlap included) is rejected. -/
theorem checkbox_validator_spec (q : Question) (raw : String)
    (l : List String) :
    (q.question_type = "checkbox" →
      (check_answer_correctness q (SubmittedValue.str raw (some l)) = true ↔
        l.toFinset = q.correct_answers.toFinset)) ∧
    check_answer_correctness q SubmittedValue.missing = false ∧
    check_answer_correctness q SubmittedValue.noAnswer = false ∧
    (q.question_type = "checkbox" →
      check_answer_correctness q (SubmittedValue.str raw none) = false) ∧
    (q.question_type = "checkbox" →
      l.toFinset ≠ q.correct_answers.toFinset →
      check_answer_correctness q (SubmittedValue.str raw (some l)) = false) := by
  refine ⟨?_, rfl, rfl, ?_, ?_⟩
  · intro hq
    simp [check_answer_correctness, hq, listSetEq_iff]
  · intro hq
    simp [check_answer_correctness, hq]
  · intro hq hne
    have h : ¬ listSetEq l q.correct_answers = true :=
      fun h => hne ((listSetEq_iff l q.correct_answers).mp h)
    simp [check_answer_correctness, hq]
    exact Bool.eq_false_iff.mpr h

/-- Witness for `checkbox_validator_spec`: with correct markers
`{"0", "2"}`, the submission `["2", "0"]` is accepted and the strict
subset `["0"]` is rejected. -/
theorem checkbox_validator_spec_witness :
    check_answer_correctness
        { id := 1, quiz_id := 1, order := 0, question_type := "checkbox",
          correct_answers := ["0", "2"], answer := "", points := 1,
          time_limit := 0, show_leaderboard := true }
        (SubmittedValue.str "[\x22 2\x22 ,\x22 0\x22 ]" (some ["2", "0"])) = true ∧
    check_answer_correctness
        { id := 1, quiz_id := 1, order := 0, question_type := "checkbox",
          correct_answers := ["0", "2"], answer := "", points := 1,
          time_limit := 0, show_leaderboard := true }
        (SubmittedValue.str "[\x22 0\x22 ]" (some ["0"])) = false := by
  constructor
  · exact (checkbox_validator_spec
      { id := 1, quiz_id := 1, order := 0, question_type := "checkbox",
        correct_answers := ["0", "2"], answer := "", points := 1,
        time_limit := 0, show_leaderboard := true }
      "[\x22 2\x22 ,\x22 0\x22 ]" ["2", "0"]).1 rfl |>.mpr (by decide)
  · exact (checkbox_validator_spec
      { id := 1, quiz_id := 1, order := 0, question_type := "checkbox",
        correct_answers := ["0", "2"], answer := "", points := 1,
        time_limit := 0, show_leaderboard := true }
      "[\x22 0\x22 ]" ["0"]).2.2.2.2 rfl (by decide)

/-! ## C10 theorem -/

/-- C10: the submission path stores the value of
`calculate_question_points` in the inserted `PartialAnswer`, and for a
checkbox question that value is all-or-nothing: 0, or the full base points
times one of the speed multipliers 1, 1.5, 1.2, 0.8 — never a
partial-credit fraction (the partial-credit branch exists only in
`ScoringService.calculate_points`, which the submission path does not
call). -/
theorem checkbox_all_or_nothing (quiz : Quiz) (q : Question) (s : String)
    (v : SubmittedValue) (t : Nat) (nid st : Nat)
    (_hq : q.question_type = "checkbox") :
    (insertedAnswer quiz q s v t nid st).points =
      calculate_question_points q (check_answer_correctness q v) t quiz ∧
    ∀ c : Bool, calculate_question_points q c t quiz = 0 ∨
      ∃ m ∈ ([1, 3/2, 6/5, 4/5] : List ℚ),
        calculate_question_points q c t quiz = basePoints q * m := by
  refine ⟨rfl, ?_⟩
  intro c
  cases c with
  | false => exact Or.inl rfl
  | true =>
    right
    simp only [calculate_question_points, reduceCtorEq, if_false]
    split_ifs
    · exact ⟨3/2, by norm_num, rfl⟩
    · exact ⟨6/5, by norm_num, rfl⟩
    · exact ⟨1, by norm_num, rfl⟩
    · exact ⟨4/5, by norm_num, rfl⟩
    · exact ⟨1, by norm_num, (mul_one _).symm⟩

/-- Witness for `checkbox_all_or_nothing`: a concrete checkbox submission
stores exactly the calculated points. -/
theorem checkbox_all_or_nothing_witness :
    (insertedAnswer
        { id := 1, has_timer := false, overall_timer := none,
          show_leaderboard_global := true, is_published := true,
          is_active := true, is_paused := false, paused_seconds := 0 }
        { id := 7, quiz_id := 1, order := 0, question_type := "checkbox",
          correct_answers := ["0", "2"], answer := "", points := 2,
          time_limit := 0, show_leaderboard := true }
        "ann" (SubmittedValue.str "x" (some ["0", "2"])) 4 11 100).points =
      calculate_question_points
        { id := 7, quiz_id := 1, order := 0, question_type := "checkbox",
          correct_answers := ["0", "2"], answer := "", points := 2,
          time_limit := 0, show_leaderboard := true }
        (check_answer_correctness
          { id := 7, quiz_id := 1, order := 0, question_type := "checkbox",
            correct_answers := ["0", "2"], answer := "", points := 2,
            time_limit := 0, show_leaderboard := true }
          (SubmittedValue.str "x" (some ["0", "2"]))) 4
        { id := 1, has_timer := false, overall_timer := none,
          show_leaderboard_global := true, is_published := true,
          is_active := true, is_paused := false, paused_seconds := 0 } :=
  (checkbox_all_or_nothing
    { id := 1, has_timer := false, overall_timer := none,
      show_leaderboard_global := true, is_published := true,
      is_active := true, is_paused := false, paused_seconds := 0 }
    { id := 7, quiz_id := 1, order := 0, question_type := "checkbox",
      correct_answers := ["0", "2"], answer := "", points := 2,
      time_limit := 0, show_leaderboard := true }
    "ann" (SubmittedValue.str "x" (some ["0", "2"])) 4 11 100 rfl).1

end QuizX
